import Mathlib

/-!
Verification of the Smart Candidate Aggregator core pipeline (src/main.py).

The embedding models the pure decision logic of the service:
* `IntelligenceEngine.infer_visa_status` (visa classification from education
  history) — Python string operations (`str.lower`, substring membership,
  `int(...)` on a 4-character slice) are modelled by executable Lean
  functions over ASCII strings; the Python `ValueError` that `int` raises on
  a non-numeric literal is modelled by `Except.error`.
* the verify-and-filter loop of the `source_candidates` endpoint, with the
  `random.randint(85, 99)` draws supplied as an explicit stream `rng`.
* `SourcingEngine.find_candidates`, with the network outcome supplied as an
  explicit `ProviderOutcome` value.
* the `market_bench` endpoint (pure string formatting).

Spec status names map to the source's string literals:
CITIZEN_OR_GC = "Citizen/GC", OPT_STEM = "OPT/STEM", H1B = "H1B",
FOREIGN_H1B = "Foreign/H1B".
-/

deriving instance DecidableEq for Except

namespace SmartRecruiter

/-- Python `str.lower()` on an ASCII string, as a map over its characters
(the source only lowercases ASCII country names and skill keywords). -/
def lowerAscii (cs : List Char) : List Char :=
  cs.map Char.toLower

/-- Whitespace characters stripped by Python `int(str)` before parsing
(ASCII subset of `str.strip`). -/
def isPyWS (c : Char) : Bool :=
  c == ' ' || c == '\t' || c == '\n' || c == '\r' || c == '\x0b' || c == '\x0c'

/-- Continuation of a Python integer literal after its first digit:
digits with single underscores allowed only between digits. -/
def digitsRest (acc : Nat) : List Char → Option Nat
  | [] => some acc
  | '_' :: c :: cs =>
      if c.isDigit then digitsRest (acc * 10 + (c.toNat - 48)) cs else none
  | ['_'] => none
  | c :: cs =>
      if c.isDigit then digitsRest (acc * 10 + (c.toNat - 48)) cs else none

/-- Value of a nonempty Python digit sequence (underscore-separated groups
allowed), or `none` when malformed. -/
def digitsVal (cs : List Char) : Option Nat :=
  match cs with
  | [] => none
  | c :: rest => if c.isDigit then digitsRest (c.toNat - 48) rest else none

/-- Python `int(s)` on an ASCII string: strip whitespace, optional sign,
then a digit sequence; `none` models the `ValueError` raised otherwise. -/
def pyIntOfChars (cs0 : List Char) : Option Int :=
  let cs := ((cs0.dropWhile isPyWS).reverse.dropWhile isPyWS).reverse
  match cs with
  | '+' :: rest => (digitsVal rest).map (fun n => (n : Int))
  | '-' :: rest => (digitsVal rest).map (fun n => -(n : Int))
  | rest => (digitsVal rest).map (fun n => (n : Int))

/-- Does `hay` start with `needle`? (list form of string comparison). -/
def listStartsWith : List Char → List Char → Bool
  | [], _ => true
  | _ :: _, [] => false
  | a :: as, b :: bs => a == b && listStartsWith as bs

/-- Python substring membership `needle in hay` on character lists. -/
def listContains (needle : List Char) : List Char → Bool
  | [] => needle.isEmpty
  | c :: rest => listStartsWith needle (c :: rest) || listContains needle rest

/-- Python `needle in hay` for strings, the haystack lowercased first
(the source always lowercases before its membership tests). -/
def strContainsLowered (hay needle : String) : Bool :=
  listContains needle.toList (lowerAscii hay.toList)

/-- Python `int(date_str[:4])`, as an `Option`: the first four characters of
the string parsed as an integer, `none` when `int` would raise. -/
def parseYear (dateStr : String) : Option Int :=
  pyIntOfChars (dateStr.toList.take 4)

/-- The US test of `infer_visa_status` (main.py line 136): case-insensitive
substring match of "united states" or "usa" against the country field. -/
def usCountryMatch (country : String) : Bool :=
  strContainsLowered country "united states" || strContainsLowered country "usa"

/-- One education record as consumed by the classifier.  `country` and
`end_date` model `str(edu.get(..., ''))`: a missing field is the empty
string, a JSON null end date is the string "None". -/
structure EducationRecord where
  degree : String
  country : String
  end_date : String
deriving DecidableEq, Repr

/-- A normalized candidate record (the dict shape produced by
`SourcingEngine`). -/
structure Candidate where
  name : String
  job_title : String
  skills : List String
  educ : List EducationRecord
  email : String
  location : String
deriving DecidableEq, Repr

/-- One iteration of the education scan loop of `infer_visa_status`
(main.py lines 134-141), acting on the state `(has_us_degree,
us_grad_year)`.  A US-matching record with an end-date string of length at
least 4 overwrites the year with `int(date_str[:4])`, which raises
(`Except.error`) on a non-numeric prefix; shorter or absent dates leave the
state's year unchanged. -/
def scanStep (st : Bool × Int) (edu : EducationRecord) : Except String (Bool × Int) :=
  if usCountryMatch edu.country then
    if 4 ≤ edu.end_date.length then
      match parseYear edu.end_date with
      | some y => Except.ok (true, y)
      | none => Except.error "ValueError: invalid literal for int() with base 10"
    else Except.ok (true, st.2)
  else Except.ok st

/-- The full education scan loop of `infer_visa_status`, threading the
`(has_us_degree, us_grad_year)` state and propagating the `ValueError`. -/
def scanEducation : List EducationRecord → Bool × Int → Except String (Bool × Int)
  | [], st => Except.ok st
  | edu :: rest, st =>
      match scanStep st edu with
      | Except.ok st2 => scanEducation rest st2
      | Except.error e => Except.error e

/-- The years-since-graduation heuristic of `infer_visa_status` (main.py
lines 150-160): at least 10 years since graduation yields "Citizen/GC", at
most 3 yields "OPT/STEM", otherwise "H1B". -/
def heuristic (years_since_grad : Int) : String :=
  if 10 ≤ years_since_grad then "Citizen/GC"
  else if years_since_grad ≤ 3 then "OPT/STEM"
  else "H1B"

/-- `IntelligenceEngine.infer_visa_status` (main.py lines 124-160), with
`datetime.now().year` passed explicitly as `current_year`.  Returns the
status string, or `Except.error` when the Python code would raise. -/
def infer_visa_status (education_history : List EducationRecord)
    (current_year : Int) : Except String String :=
  match scanEducation education_history (false, 0) with
  | Except.error e => Except.error e
  | Except.ok (hasUS, usGradYear) =>
      if !hasUS then Except.ok "Foreign/H1B"
      else Except.ok (heuristic (current_year - usGradYear))

/-- The fixed keyword list of `parse_skills_from_text` (main.py line 169). -/
def common_skills : List String :=
  ["Java", "Python", "AWS", "React", "Spring", "Docker", "Kubernetes"]

/-- `IntelligenceEngine.parse_skills_from_text` (main.py lines 163-171). -/
def parse_skills_from_text (text : String) : List String :=
  let found := common_skills.filter
    (fun s => listContains (lowerAscii s.toList) (lowerAscii text.toList))
  if found.isEmpty then ["General IT"] else found

/-- A raw person record from the live provider, as read by
`_normalize_pdl_data`: every field optional (`dict.get`). -/
structure RawPerson where
  full_name : Option String
  job_title : Option String
  skills : Option (List String)
  education : Option (List EducationRecord)
  work_email : Option String
  personal_emails : Option (List String)
  location_name : Option String
deriving DecidableEq, Repr

/-- The email selection of `_normalize_pdl_data` (main.py line 113):
`person.get('work_email') or person.get('personal_emails', [''])[0]`.
A missing or empty (falsy) work email falls back to the first personal
email; `[0]` on a present-but-empty list raises `IndexError`
(`Except.error`), which the caller's `try` block turns into the mock
fallback. -/
def pdlEmail (p : RawPerson) : Except String String :=
  let fallback : Except String String :=
    match p.personal_emails with
    | none => Except.ok ""
    | some [] => Except.error "IndexError: list index out of range"
    | some (e :: _) => Except.ok e
  match p.work_email with
  | some e => if e == "" then fallback else Except.ok e
  | none => fallback

/-- `_normalize_pdl_data` on one person (main.py lines 108-115). -/
def normalize_pdl_person (p : RawPerson) : Except String Candidate :=
  match pdlEmail p with
  | Except.error e => Except.error e
  | Except.ok email =>
      Except.ok
        { name := p.full_name.getD "Unknown"
        , job_title := p.job_title.getD "Developer"
        , skills := p.skills.getD []
        , educ := p.education.getD []
        , email := email
        , location := p.location_name.getD "US" }

/-- `SourcingEngine._normalize_pdl_data` (main.py lines 104-116),
propagating the `IndexError` an empty personal-email list raises. -/
def normalize_pdl_data : List RawPerson → Except String (List Candidate)
  | [] => Except.ok []
  | p :: rest =>
      match normalize_pdl_person p with
      | Except.error e => Except.error e
      | Except.ok c =>
          match normalize_pdl_data rest with
          | Except.error e => Except.error e
          | Except.ok cs => Except.ok (c :: cs)

/-- Outcome of the outbound provider call in `find_candidates`:
`connectionError` models `requests.get` raising; `response status payload`
models an HTTP response whose body parse (`response.json()` and
`data['data']`) either produced a record list or raised
(`Except.error`). -/
inductive ProviderOutcome where
  | connectionError : String → ProviderOutcome
  | response : Nat → Except String (List RawPerson) → ProviderOutcome
deriving DecidableEq, Repr

/-- First entry of the static fallback candidate set (main.py lines
85-92). -/
def sarah_jones : Candidate :=
  { name := "Sarah Jones"
  , job_title := "Senior Java Developer"
  , skills := ["Java", "AWS", "Spring"]
  , educ := [⟨"B.S.", "United States", "2012"⟩]
  , email := "sarah.j@example.com"
  , location := "Austin, TX" }

/-- Second entry of the static fallback candidate set (main.py lines
93-100). -/
def alex_chen : Candidate :=
  { name := "Alex Chen"
  , job_title := "Java Developer"
  , skills := ["Java", "Spring"]
  , educ := [⟨"M.S.", "United States", "2021"⟩, ⟨"B.S.", "China", "2019"⟩]
  , email := "alex.c@example.com"
  , location := "San Francisco, CA" }

/-- The static fallback candidate set of `find_candidates` BLOCK B
(main.py lines 84-101). -/
def mock_candidates : List Candidate :=
  [sarah_jones, alex_chen]

/-- `SourcingEngine.find_candidates` (main.py lines 54-101), with the
environment key and the network outcome passed explicitly.  Everything the
`try` block raises (connection failure, payload parse, normalization) is
caught and falls through to the mock data, as does a non-200 status; the
function is total — it always returns a plain candidate list. -/
def find_candidates (apiKey : Option String) (outcome : ProviderOutcome) :
    List Candidate :=
  match apiKey with
  | none => mock_candidates
  | some _ =>
      match outcome with
      | ProviderOutcome.connectionError _ => mock_candidates
      | ProviderOutcome.response status payload =>
          if status == 200 then
            match payload with
            | Except.ok data =>
                match normalize_pdl_data data with
                | Except.ok cands => cands
                | Except.error _ => mock_candidates
            | Except.error _ => mock_candidates
          else mock_candidates

/-- A candidate accepted by the `source_candidates` loop, with the fields
the loop attaches (main.py lines 209-211). -/
structure VerifiedCandidate where
  cand : Candidate
  verified_visa_status : String
  match_score : String
  action_item : String
deriving DecidableEq, Repr

/-- The default of `JobRequest.visa_requirement` (main.py line 37): an
unset requirement means "Citizen/GC". -/
def default_visa_requirement : String := "Citizen/GC"

/-- The verify-and-filter loop of `source_candidates` (main.py lines
200-212).  `rng i` supplies the i-th `random.randint(85, 99)` draw; a draw
is consumed only when a candidate is accepted.  A `ValueError` raised by
`infer_visa_status` propagates out of the loop. -/
def verifyLoop (requirement : String) (asOf : Int) (rng : Nat → Nat) :
    Nat → List Candidate → Except String (List VerifiedCandidate)
  | _, [] => Except.ok []
  | i, c :: rest =>
      match infer_visa_status c.educ asOf with
      | Except.error e => Except.error e
      | Except.ok status =>
          if requirement == "Citizen/GC" && status != "Citizen/GC" then
            verifyLoop requirement asOf rng i rest
          else
            match verifyLoop requirement asOf rng (i + 1) rest with
            | Except.error e => Except.error e
            | Except.ok out =>
                Except.ok
                  ({ cand := c
                   , verified_visa_status := status
                   , match_score := toString (rng i) ++ "%"
                   , action_item := "Ready to Interview" } :: out)

/-- The response record of `source_candidates` (main.py lines 214-219). -/
structure SourceResult where
  job_title : String
  total_scanned : Nat
  verified_count : Nat
  candidates : List VerifiedCandidate
deriving DecidableEq, Repr

/-- The `source_candidates` endpoint after sourcing (main.py lines
197-219): run the verify-and-filter loop and assemble the response. -/
def source_candidates_result (title : String) (requirement : String)
    (asOf : Int) (rng : Nat → Nat) (raw : List Candidate) :
    Except String SourceResult :=
  match verifyLoop requirement asOf rng 0 raw with
  | Except.error e => Except.error e
  | Except.ok out =>
      Except.ok
        { job_title := title
        , total_scanned := raw.length
        , verified_count := out.length
        , candidates := out }

/-- Does the classifier exclude this candidate under the "Citizen/GC"
requirement? (the rejection test of main.py line 204; an exception from
the classifier is counted as not accepted). -/
def excludedUnderCitizenGC (asOf : Int) (c : Candidate) : Bool :=
  match infer_visa_status c.educ asOf with
  | Except.ok s => s != "Citizen/GC"
  | Except.error _ => true

/-- Request body of the `market_bench` endpoint (main.py lines 40-44). -/
structure BenchRequest where
  name : String
  resume_text : String
  tech_stack : String
deriving DecidableEq, Repr

/-- One mock market opportunity (main.py lines 232-235). -/
structure MarketJob where
  title : String
  company : String
deriving DecidableEq, Repr

/-- Response record of the `market_bench` endpoint (main.py lines
247-251). -/
structure BenchResult where
  consultant : String
  market_opportunities : List MarketJob
  auto_generated_email : String
deriving DecidableEq, Repr

/-- The `market_bench` endpoint (main.py lines 221-251): pure string
formatting from the request's `name` and `tech_stack`. -/
def market_bench (r : BenchRequest) : BenchResult :=
  { consultant := r.name
  , market_opportunities :=
      [ ⟨"Senior " ++ r.tech_stack ++ " Lead", "TechCorp Inc"⟩
      , ⟨r.tech_stack ++ " Developer", "StartupFlow"⟩ ]
  , auto_generated_email :=
      "Subject: Immediate Available Consultant - " ++ r.name ++
      "\n\nHi Hiring Manager,\n\nI have a senior consultant, " ++ r.name ++
      ", who matches your requirements perfectly. Expertise: " ++
      r.tech_stack ++ ".\nVisa: Ready to deploy.\n\n" ++
      "Please let me know if you are open to C2C." }

/-- The year the scan loop ends with, relative to what it started with:
the first-four-character parse of the last US-matching record whose
end-date string has at least four characters, or `none` when no such
record exists (shorter or absent end dates never overwrite the year). -/
def lastLongUSYear : List EducationRecord → Option Int
  | [] => none
  | edu :: rest =>
      match lastLongUSYear rest with
      | some y => some y
      | none =>
          if usCountryMatch edu.country && decide (4 ≤ edu.end_date.length) then
            parseYear edu.end_date
          else none

/-- Modelled from the claim C3 wording (spec section 4.2 step 2): the
graduation year is the first four characters of the LAST US-matching
record's end-date string parsed as an integer, 0 if absent or malformed.
This is the spec's reading, to be compared against the scan loop of the
source; it differs from the code when the last US-matching record has a
short or absent end date. -/
def specC3GradYear (l : List EducationRecord) : Int :=
  match (l.filter (fun e => usCountryMatch e.country)).getLast? with
  | none => 0
  | some e => (parseYear e.end_date).getD 0

/-- A record that is not a US record with a long-enough end date leaves the
last-long-US-year of a list unchanged. -/
theorem lastLongUSYear_cons_skip (e : EducationRecord) (rest : List EducationRecord)
    (h : (usCountryMatch e.country && decide (4 ≤ e.end_date.length)) = false) :
    lastLongUSYear (e :: rest) = lastLongUSYear rest := by
  simp only [lastLongUSYear, h]
  cases lastLongUSYear rest <;> rfl

/-- A US record with a long-enough end date supplies the year unless a
later record overrides it. -/
theorem lastLongUSYear_cons_keep (e : EducationRecord) (rest : List EducationRecord)
    (y : Int)
    (h : (usCountryMatch e.country && decide (4 ≤ e.end_date.length)) = true)
    (hy : parseYear e.end_date = some y) :
    lastLongUSYear (e :: rest) = some ((lastLongUSYear rest).getD y) := by
  simp only [lastLongUSYear, h, if_true, hy]
  cases lastLongUSYear rest <;> rfl

/-- When every US record in the list has a short (or absent) end date, no
record supplies a year. -/
theorem lastLongUSYear_eq_none (l : List EducationRecord)
    (h : ∀ e ∈ l, usCountryMatch e.country = true → e.end_date.length < 4) :
    lastLongUSYear l = none := by
  induction l with
  | nil => rfl
  | cons e rest ih =>
      have hcond : (usCountryMatch e.country && decide (4 ≤ e.end_date.length)) = false := by
        cases hu : usCountryMatch e.country with
        | false => rfl
        | true =>
            have := h e (List.mem_cons_self e rest) hu
            simp [this, Nat.not_le_of_lt this]
      rw [lastLongUSYear_cons_skip e rest hcond]
      exact ih (fun x hx => h x (List.mem_cons_of_mem e hx))

/-- Characterization of the education scan loop: when every US record with
a long-enough end date parses, the loop never raises, `has_us_degree` is
the disjunction of the US tests, and the final year is the one supplied by
the last long-dated US record (the initial year when there is none). -/
theorem scanEducation_eq (l : List EducationRecord) :
    ∀ (b : Bool) (y0 : Int),
    (∀ e ∈ l, usCountryMatch e.country = true → 4 ≤ e.end_date.length →
      (parseYear e.end_date).isSome) →
    scanEducation l (b, y0) =
      Except.ok (b || l.any (fun e => usCountryMatch e.country),
        (lastLongUSYear l).getD y0) := by
  induction l with
  | nil => intro b y0 _; simp [scanEducation, lastLongUSYear]
  | cons e rest ih =>
      intro b y0 hp
      have hrest : ∀ x ∈ rest, usCountryMatch x.country = true →
          4 ≤ x.end_date.length → (parseYear x.end_date).isSome :=
        fun x hx => hp x (List.mem_cons_of_mem e hx)
      cases hu : usCountryMatch e.country with
      | false =>
          have hstep : scanStep (b, y0) e = Except.ok (b, y0) := by
            simp [scanStep, hu]
          have hcond : (usCountryMatch e.country && decide (4 ≤ e.end_date.length)) = false := by
            simp [hu]
          rw [scanEducation, hstep]
          show scanEducation rest (b, y0) = _
          rw [ih b y0 hrest, lastLongUSYear_cons_skip e rest hcond]
          simp [hu]
      | true =>
          by_cases hlen : 4 ≤ e.end_date.length
          · obtain ⟨y, hy⟩ := Option.isSome_iff_exists.mp
              (hp e (List.mem_cons_self e rest) hu hlen)
            have hstep : scanStep (b, y0) e = Except.ok (true, y) := by
              simp [scanStep, hu, hlen, hy]
            have hcond : (usCountryMatch e.country && decide (4 ≤ e.end_date.length)) = true := by
              simp [hu, hlen]
            rw [scanEducation, hstep]
            show scanEducation rest (true, y) = _
            rw [ih true y hrest, lastLongUSYear_cons_keep e rest y hcond hy]
            cases lastLongUSYear rest <;> simp [hu]
          · have hstep : scanStep (b, y0) e = Except.ok (true, y0) := by
              simp [scanStep, hu, hlen]
            have hcond : (usCountryMatch e.country && decide (4 ≤ e.end_date.length)) = false := by
              simp [hu, hlen]
            rw [scanEducation, hstep]
            show scanEducation rest (true, y0) = _
            rw [ih true y0 hrest, lastLongUSYear_cons_skip e rest hcond]
            simp [hu]

/-- The heuristic yields "Citizen/GC" exactly for at least 10 years since
graduation. -/
theorem heuristic_eq_citizen_iff (d : Int) : (heuristic d = "Citizen/GC") ↔ 10 ≤ d := by
  unfold heuristic
  by_cases h : 10 ≤ d
  · simp [h]
  · rw [if_neg h]
    by_cases h2 : d ≤ 3
    · rw [if_pos h2]
      exact ⟨fun he => absurd he (by decide), fun hd => absurd hd h⟩
    · rw [if_neg h2]
      exact ⟨fun he => absurd he (by decide), fun hd => absurd hd h⟩

/-- The heuristic yields "OPT/STEM" exactly for at most 3 years since
graduation. -/
theorem heuristic_eq_opt_iff (d : Int) : (heuristic d = "OPT/STEM") ↔ d ≤ 3 := by
  unfold heuristic
  by_cases h : 10 ≤ d
  · rw [if_pos h]
    exact ⟨fun he => absurd he (by decide), fun h3 => absurd h (by omega)⟩
  · rw [if_neg h]
    by_cases h2 : d ≤ 3
    · simp [h2]
    · rw [if_neg h2]
      exact ⟨fun he => absurd he (by decide), fun h3 => absurd h3 h2⟩

/-- The heuristic yields "H1B" exactly between 4 and 9 years since
graduation. -/
theorem heuristic_eq_h1b_iff (d : Int) : (heuristic d = "H1B") ↔ (4 ≤ d ∧ d ≤ 9) := by
  unfold heuristic
  by_cases h : 10 ≤ d
  · rw [if_pos h]
    exact ⟨fun he => absurd he (by decide), fun hd => absurd h (by omega)⟩
  · by_cases h2 : d ≤ 3
    · rw [if_neg h, if_pos h2]
      exact ⟨fun he => absurd he (by decide), fun hd => absurd h2 (by omega)⟩
    · rw [if_neg h, if_neg h2]
      exact ⟨fun _ => by omega, fun _ => rfl⟩

/-- Unfolding of the verify-and-filter loop when the classifier raises on
the head candidate. -/
theorem verifyLoop_cons_err (req : String) (asOf : Int) (rng : Nat → Nat)
    (i : Nat) (c : Candidate) (rest : List Candidate) (e : String)
    (hs : infer_visa_status c.educ asOf = Except.error e) :
    verifyLoop req asOf rng i (c :: rest) = Except.error e := by
  rw [verifyLoop, hs]

/-- Unfolding of the verify-and-filter loop when the classifier returns a
status for the head candidate. -/
theorem verifyLoop_cons_ok (req : String) (asOf : Int) (rng : Nat → Nat)
    (i : Nat) (c : Candidate) (rest : List Candidate) (status : String)
    (hs : infer_visa_status c.educ asOf = Except.ok status) :
    verifyLoop req asOf rng i (c :: rest) =
      (if (req == "Citizen/GC" && status != "Citizen/GC") = true then
        verifyLoop req asOf rng i rest
      else
        match verifyLoop req asOf rng (i + 1) rest with
        | Except.error e => Except.error e
        | Except.ok out =>
            Except.ok
              ({ cand := c
               , verified_visa_status := status
               , match_score := toString (rng i) ++ "%"
               , action_item := "Ready to Interview" } :: out)) := by
  rw [verifyLoop, hs]

/-- The verify-and-filter loop is a stable filter: the accepted candidates
form a sublist of the scanned list, in order. -/
theorem verifyLoop_sublist (req : String) (asOf : Int) (rng : Nat → Nat) :
    ∀ (i : Nat) (raw : List Candidate) (out : List VerifiedCandidate),
    verifyLoop req asOf rng i raw = Except.ok out →
    List.Sublist (out.map (fun v => v.cand)) raw := by
  intro i raw
  induction raw generalizing i with
  | nil =>
      intro out h
      simp only [verifyLoop] at h
      injection h with h
      subst h
      simp
  | cons c rest ih =>
      intro out h
      cases hinf : infer_visa_status c.educ asOf with
      | error e => rw [verifyLoop_cons_err req asOf rng i c rest e hinf] at h; cases h
      | ok status =>
          rw [verifyLoop_cons_ok req asOf rng i c rest status hinf] at h
          by_cases hrej : (req == "Citizen/GC" && status != "Citizen/GC") = true
          · rw [if_pos hrej] at h
            exact List.Sublist.cons c (ih i out h)
          · rw [if_neg hrej] at h
            cases hrest : verifyLoop req asOf rng (i + 1) rest with
            | error e => rw [hrest] at h; cases h
            | ok out2 =>
                rw [hrest] at h
                injection h with h
                subst h
                simp only [List.map_cons]
                exact List.Sublist.cons₂ c (ih (i + 1) out2 hrest)

/-- Every accepted candidate carries the status the classifier inferred
for it, and under the "Citizen/GC" requirement that status is
"Citizen/GC". -/
theorem verifyLoop_status (req : String) (asOf : Int) (rng : Nat → Nat) :
    ∀ (i : Nat) (raw : List Candidate) (out : List VerifiedCandidate),
    verifyLoop req asOf rng i raw = Except.ok out →
    ∀ v ∈ out,
      infer_visa_status v.cand.educ asOf = Except.ok v.verified_visa_status ∧
      (req = "Citizen/GC" → v.verified_visa_status = "Citizen/GC") := by
  intro i raw
  induction raw generalizing i with
  | nil =>
      intro out h
      simp only [verifyLoop] at h
      injection h with h
      subst h
      intro v hv
      cases hv
  | cons c rest ih =>
      intro out h
      cases hinf : infer_visa_status c.educ asOf with
      | error e => rw [verifyLoop_cons_err req asOf rng i c rest e hinf] at h; cases h
      | ok status =>
          rw [verifyLoop_cons_ok req asOf rng i c rest status hinf] at h
          by_cases hrej : (req == "Citizen/GC" && status != "Citizen/GC") = true
          · rw [if_pos hrej] at h
            exact ih i out h
          · rw [if_neg hrej] at h
            cases hrest : verifyLoop req asOf rng (i + 1) rest with
            | error e => rw [hrest] at h; cases h
            | ok out2 =>
                rw [hrest] at h
                injection h with h
                subst h
                intro v hv
                rcases List.mem_cons.mp hv with hv | hv
                · subst hv
                  refine ⟨hinf, fun hreq => ?_⟩
                  subst hreq
                  by_contra hne
                  exact hrej (by simp [hne])
                · exact ih (i + 1) out2 hrest v hv

/-- Under the "Citizen/GC" requirement, the accepted count plus the number
of candidates the rejection test excludes is the number scanned. -/
theorem verifyLoop_count_citizen (asOf : Int) (rng : Nat → Nat) :
    ∀ (i : Nat) (raw : List Candidate) (out : List VerifiedCandidate),
    verifyLoop "Citizen/GC" asOf rng i raw = Except.ok out →
    out.length + raw.countP (excludedUnderCitizenGC asOf) = raw.length := by
  intro i raw
  induction raw generalizing i with
  | nil =>
      intro out h
      simp only [verifyLoop] at h
      injection h with h
      subst h
      simp
  | cons c rest ih =>
      intro out h
      cases hinf : infer_visa_status c.educ asOf with
      | error e =>
          rw [verifyLoop_cons_err "Citizen/GC" asOf rng i c rest e hinf] at h
          cases h
      | ok status =>
          rw [verifyLoop_cons_ok "Citizen/GC" asOf rng i c rest status hinf] at h
          by_cases hst : (status != "Citizen/GC") = true
          · have hrej : (("Citizen/GC" == "Citizen/GC") && status != "Citizen/GC") = true := by
              simp [hst]
            rw [if_pos hrej] at h
            have hexc : excludedUnderCitizenGC asOf c = true := by
              simp [excludedUnderCitizenGC, hinf, hst]
            rw [List.countP_cons_of_pos _ _ hexc]
            have := ih i out h
            simp only [List.length_cons]
            omega
          · have hrej : (("Citizen/GC" == "Citizen/GC") && status != "Citizen/GC") = false := by
              simp [hst]
            rw [hrej] at h
            rw [if_neg (by decide : ¬((false : Bool) = true))] at h
            cases hrest : verifyLoop "Citizen/GC" asOf rng (i + 1) rest with
            | error e => rw [hrest] at h; cases h
            | ok out2 =>
                rw [hrest] at h
                injection h with h
                subst h
                have hexc : excludedUnderCitizenGC asOf c = false := by
                  simp only [excludedUnderCitizenGC, hinf]
                  simpa using hst
                rw [List.countP_cons_of_neg _ _ (by simp [hexc])]
                have := ih (i + 1) out2 hrest
                simp only [List.length_cons]
                omega

/-- When the requirement is not the string "Citizen/GC", the loop accepts
every scanned candidate, in order. -/
theorem verifyLoop_all_accepted (req : String) (asOf : Int) (rng : Nat → Nat)
    (hreq : (req == "Citizen/GC") = false) :
    ∀ (i : Nat) (raw : List Candidate) (out : List VerifiedCandidate),
    verifyLoop req asOf rng i raw = Except.ok out →
    out.map (fun v => v.cand) = raw := by
  intro i raw
  induction raw generalizing i with
  | nil =>
      intro out h
      simp only [verifyLoop] at h
      injection h with h
      subst h
      simp
  | cons c rest ih =>
      intro out h
      cases hinf : infer_visa_status c.educ asOf with
      | error e => rw [verifyLoop_cons_err req asOf rng i c rest e hinf] at h; cases h
      | ok status =>
          rw [verifyLoop_cons_ok req asOf rng i c rest status hinf] at h
          rw [hreq, Bool.false_and] at h
          rw [if_neg (by decide : ¬((false : Bool) = true))] at h
          cases hrest : verifyLoop req asOf rng (i + 1) rest with
          | error e => rw [hrest] at h; cases h
          | ok out2 =>
              rw [hrest] at h
              injection h with h
              subst h
              simp only [List.map_cons]
              rw [ih (i + 1) out2 hrest]

/-- Every accepted candidate's match score is the string form of its
`randint` draw followed by a percent sign; with draws in `[85, 99]` the
numeric part lies in that range. -/
theorem verifyLoop_scores (req : String) (asOf : Int) (rng : Nat → Nat)
    (hr : ∀ n, 85 ≤ rng n ∧ rng n ≤ 99) :
    ∀ (i : Nat) (raw : List Candidate) (out : List VerifiedCandidate),
    verifyLoop req asOf rng i raw = Except.ok out →
    ∀ v ∈ out, ∃ n, 85 ≤ n ∧ n ≤ 99 ∧ v.match_score = toString n ++ "%" := by
  intro i raw
  induction raw generalizing i with
  | nil =>
      intro out h
      simp only [verifyLoop] at h
      injection h with h
      subst h
      intro v hv
      cases hv
  | cons c rest ih =>
      intro out h
      cases hinf : infer_visa_status c.educ asOf with
      | error e => rw [verifyLoop_cons_err req asOf rng i c rest e hinf] at h; cases h
      | ok status =>
          rw [verifyLoop_cons_ok req asOf rng i c rest status hinf] at h
          by_cases hrej : (req == "Citizen/GC" && status != "Citizen/GC") = true
          · rw [if_pos hrej] at h
            exact ih i out h
          · rw [if_neg hrej] at h
            cases hrest : verifyLoop req asOf rng (i + 1) rest with
            | error e => rw [hrest] at h; cases h
            | ok out2 =>
                rw [hrest] at h
                injection h with h
                subst h
                intro v hv
                rcases List.mem_cons.mp hv with hv | hv
                · subst hv
                  exact ⟨rng i, (hr i).1, (hr i).2, rfl⟩
                · exact ih (i + 1) out2 hrest v hv

/-- Which candidates the loop accepts does not depend on the random draw
stream or its position: the accepted-candidate projection of the result is
the same for any two streams. -/
theorem verifyLoop_rng_irrelevant (req : String) (asOf : Int)
    (rng rng2 : Nat → Nat) :
    ∀ (i j : Nat) (raw : List Candidate),
    (verifyLoop req asOf rng i raw).map (List.map (fun v => v.cand)) =
      (verifyLoop req asOf rng2 j raw).map (List.map (fun v => v.cand)) := by
  intro i j raw
  induction raw generalizing i j with
  | nil => rfl
  | cons c rest ih =>
      cases hinf : infer_visa_status c.educ asOf with
      | error e =>
          rw [verifyLoop_cons_err req asOf rng i c rest e hinf,
            verifyLoop_cons_err req asOf rng2 j c rest e hinf]
      | ok status =>
          rw [verifyLoop_cons_ok req asOf rng i c rest status hinf,
            verifyLoop_cons_ok req asOf rng2 j c rest status hinf]
          by_cases hrej : (req == "Citizen/GC" && status != "Citizen/GC") = true
          · rw [if_pos hrej, if_pos hrej]
            exact ih i j
          · rw [if_neg hrej, if_neg hrej]
            have hih := ih (i + 1) (j + 1)
            cases h1 : verifyLoop req asOf rng (i + 1) rest with
            | error e =>
                cases h2 : verifyLoop req asOf rng2 (j + 1) rest with
                | error e2 =>
                    rw [h1, h2] at hih
                    simp only [Except.map] at hih
                    injection hih with hih
                    subst hih
                    rfl
                | ok out2 => rw [h1, h2] at hih; simp [Except.map] at hih
            | ok out1 =>
                cases h2 : verifyLoop req asOf rng2 (j + 1) rest with
                | error e2 => rw [h1, h2] at hih; simp [Except.map] at hih
                | ok out2 =>
                    rw [h1, h2] at hih
                    have hmap : List.map (fun v => v.cand) out1 =
                        List.map (fun v => v.cand) out2 := by
                      simp only [Except.map] at hih
                      injection hih
                    simp [Except.map, hmap]

/-- Claim C1, counterexample: an education history whose only US record
has a missing (empty) `end_date` is classified with graduation year 0, and
the years-since-grad computation routes it to "Citizen/GC" — the result IS
the CITIZEN_OR_GC bucket, refuting the claim that such a candidate is
routed to a non-citizen bucket. -/
theorem C1_counterexample :
    infer_visa_status [⟨"B.S.", "United States", ""⟩] 2024 =
      Except.ok "Citizen/GC" := by decide

/-- Claim C1, amended: for every education history containing at least one
US record in which every US record's `end_date` is missing or too short
(fewer than four characters, so no US record supplies a year), `infer`
treats the graduation year as 0, and for any evaluation year of at least
10 the years-since-grad computation deterministically routes the candidate
to "Citizen/GC", the highest-confidence bucket (a non-numeric `end_date`
of length at least four instead raises, see C2). -/
theorem C1_amended_year_zero_citizen (l : List EducationRecord) (Y : Int)
    (hus : ∃ e ∈ l, usCountryMatch e.country = true)
    (hshort : ∀ e ∈ l, usCountryMatch e.country = true → e.end_date.length < 4)
    (hY : 10 ≤ Y) :
    infer_visa_status l Y = Except.ok "Citizen/GC" := by
  have hparse : ∀ e ∈ l, usCountryMatch e.country = true →
      4 ≤ e.end_date.length → (parseYear e.end_date).isSome := by
    intro e he hu hlen
    exact absurd hlen (by have := hshort e he hu; omega)
  have hscan := scanEducation_eq l false 0 hparse
  rw [lastLongUSYear_eq_none l hshort] at hscan
  have hany : (l.any fun e => usCountryMatch e.country) = true :=
    List.any_eq_true.mpr (by obtain ⟨e, he, hu⟩ := hus; exact ⟨e, he, hu⟩)
  rw [hany] at hscan
  simp only [Bool.false_or, Option.getD_none] at hscan
  unfold infer_visa_status
  rw [hscan]
  show (if !(true : Bool) then Except.ok "Foreign/H1B"
    else Except.ok (heuristic (Y - 0)) : Except String String) =
    Except.ok "Citizen/GC"
  rw [if_neg (by decide : ¬((!(true : Bool)) = true)), sub_zero,
    (heuristic_eq_citizen_iff Y).mpr hY]

/-- Claim C1, witness: the amended theorem applied to a single US record
with a too-short (two-character) end date, evaluated in 2024. -/
theorem C1_witness :
    infer_visa_status [⟨"M.S.", "USA", "20"⟩] 2024 = Except.ok "Citizen/GC" :=
  C1_amended_year_zero_citizen [⟨"M.S.", "USA", "20"⟩] 2024 (by decide)
    (by decide) (by decide)

/-- Claim C2: the classifier is NOT total — a present but non-numeric
`end_date` of length at least four reaches `int(date_str[:4])`, which
raises a `ValueError` that propagates out of `infer_visa_status`.  This
theorem evaluates the embedding at the failing input. -/
theorem C2_nonnumeric_date_raises :
    infer_visa_status [⟨"B.S.", "United States", "abcd"⟩] 2024 =
      Except.error "ValueError: invalid literal for int() with base 10" := by
  decide

/-- Claim C3, counterexample: for the history [US "2020", US ""] the claim
says the year comes from the LAST US record, parsed as 0 when absent, which
would classify as "Citizen/GC" in 2024; the code instead keeps the year
2020 from the earlier record and returns "H1B". -/
theorem C3_counterexample :
    infer_visa_status
        [⟨"B.S.", "United States", "2020"⟩, ⟨"M.S.", "United States", ""⟩] 2024 =
      Except.ok "H1B" ∧
    specC3GradYear
        [⟨"B.S.", "United States", "2020"⟩, ⟨"M.S.", "United States", ""⟩] = 0 ∧
    infer_visa_status
        [⟨"B.S.", "United States", "2020"⟩, ⟨"M.S.", "United States", ""⟩] 2024 ≠
      Except.ok (heuristic (2024 - specC3GradYear
        [⟨"B.S.", "United States", "2020"⟩, ⟨"M.S.", "United States", ""⟩])) :=
  ⟨by decide, by decide, by decide⟩

/-- Claim C3, amended: when some record matches the US test and every
US-matching record whose end-date string has at least four characters
parses, `infer` extracts the graduation year from the LAST US-matching
record whose end-date string has at least four characters (first four
characters parsed as an integer; 0 only when no US record has such a
string — a US record with a shorter or absent end date never overrides an
earlier year), and classifies by the heuristic on the difference. -/
theorem C3_amended_last_long_us_record (l : List EducationRecord) (Y : Int)
    (hus : (l.any fun e => usCountryMatch e.country) = true)
    (hparse : ∀ e ∈ l, usCountryMatch e.country = true →
      4 ≤ e.end_date.length → (parseYear e.end_date).isSome) :
    infer_visa_status l Y =
      Except.ok (heuristic (Y - (lastLongUSYear l).getD 0)) := by
  have hscan := scanEducation_eq l false 0 hparse
  rw [hus] at hscan
  simp only [Bool.false_or] at hscan
  unfold infer_visa_status
  rw [hscan]
  show (if !(true : Bool) then Except.ok "Foreign/H1B"
    else Except.ok (heuristic (Y - (lastLongUSYear l).getD 0)) :
      Except String String) = _
  rw [if_neg (by decide : ¬((!(true : Bool)) = true))]

/-- Claim C3, witness: the amended theorem applied to a history with two
US records where the later one has an absent end date; the year comes from
the earlier record (2020), giving "H1B" in 2024. -/
theorem C3_witness :
    infer_visa_status
        [⟨"B.S.", "United States", "2020"⟩, ⟨"M.S.", "United States", ""⟩] 2024 =
      Except.ok (heuristic (2024 - (lastLongUSYear
        [⟨"B.S.", "United States", "2020"⟩, ⟨"M.S.", "United States", ""⟩]).getD 0)) :=
  C3_amended_last_long_us_record
    [⟨"B.S.", "United States", "2020"⟩, ⟨"M.S.", "United States", ""⟩] 2024
    (by decide) (by decide)

/-- Claim C4: under the "Citizen/GC" requirement every returned candidate
carries the "Citizen/GC" status, and `total_scanned - verified_count`
equals the number of candidates the rejection test excludes. -/
theorem C4_citizen_filter (title : String) (asOf : Int) (rng : Nat → Nat)
    (raw : List Candidate) (res : SourceResult)
    (h : source_candidates_result title "Citizen/GC" asOf rng raw = Except.ok res) :
    (∀ v ∈ res.candidates, v.verified_visa_status = "Citizen/GC") ∧
    res.total_scanned - res.verified_count =
      raw.countP (excludedUnderCitizenGC asOf) := by
  unfold source_candidates_result at h
  cases hloop : verifyLoop "Citizen/GC" asOf rng 0 raw with
  | error e => rw [hloop] at h; cases h
  | ok out =>
      rw [hloop] at h
      injection h with h
      subst h
      refine ⟨fun v hv =>
        (verifyLoop_status "Citizen/GC" asOf rng 0 raw out hloop v hv).2 rfl, ?_⟩
      have hcount := verifyLoop_count_citizen asOf rng 0 raw out hloop
      show raw.length - out.length = raw.countP (excludedUnderCitizenGC asOf)
      omega

/-- Claim C4, witness: the filter applied to the two mock candidates in
2024 keeps Sarah Jones ("Citizen/GC") and drops Alex Chen ("OPT/STEM");
2 scanned minus 1 verified equals the 1 excluded candidate. -/
theorem C4_witness :
    (∀ v ∈ (⟨"Java Developer", 2, 1,
        [⟨sarah_jones, "Citizen/GC", "90%", "Ready to Interview"⟩]⟩ :
        SourceResult).candidates, v.verified_visa_status = "Citizen/GC") ∧
    (⟨"Java Developer", 2, 1,
        [⟨sarah_jones, "Citizen/GC", "90%", "Ready to Interview"⟩]⟩ :
        SourceResult).total_scanned -
      (⟨"Java Developer", 2, 1,
        [⟨sarah_jones, "Citizen/GC", "90%", "Ready to Interview"⟩]⟩ :
        SourceResult).verified_count =
      mock_candidates.countP (excludedUnderCitizenGC 2024) :=
  C4_citizen_filter "Java Developer" 2024 (fun _ => 90) mock_candidates
    ⟨"Java Developer", 2, 1,
      [⟨sarah_jones, "Citizen/GC", "90%", "Ready to Interview"⟩]⟩ (by decide)

/-- Claim C5: for a single US record whose end-date string parses to year
y, evaluation in year Y classifies with inclusive thresholds on Y - y:
"Citizen/GC" exactly when Y - y is at least 10, "OPT/STEM" exactly when
Y - y is at most 3, and "H1B" exactly when Y - y is between 4 and 9. -/
theorem C5_inclusive_boundaries (s : String) (y Y : Int)
    (hlen : 4 ≤ s.length) (hy : parseYear s = some y) :
    (infer_visa_status [⟨"B.S.", "United States", s⟩] Y =
        Except.ok "Citizen/GC" ↔ 10 ≤ Y - y) ∧
    (infer_visa_status [⟨"B.S.", "United States", s⟩] Y =
        Except.ok "OPT/STEM" ↔ Y - y ≤ 3) ∧
    (infer_visa_status [⟨"B.S.", "United States", s⟩] Y =
        Except.ok "H1B" ↔ (4 ≤ Y - y ∧ Y - y ≤ 9)) := by
  have hus : usCountryMatch "United States" = true := by decide
  have hstep : scanStep (false, 0) ⟨"B.S.", "United States", s⟩ =
      Except.ok (true, y) := by
    simp [scanStep, hus, hlen, hy]
  have hscan : scanEducation [⟨"B.S.", "United States", s⟩] (false, 0) =
      Except.ok (true, y) := by
    rw [scanEducation, hstep]
    show scanEducation [] (true, y) = _
    rfl
  have hinf : infer_visa_status [⟨"B.S.", "United States", s⟩] Y =
      Except.ok (heuristic (Y - y)) := by
    unfold infer_visa_status
    rw [hscan]
    show (if !(true : Bool) then Except.ok "Foreign/H1B"
      else Except.ok (heuristic (Y - y)) : Except String String) = _
    rw [if_neg (by decide : ¬((!(true : Bool)) = true))]
  rw [hinf]
  simp only [Except.ok.injEq]
  exact ⟨heuristic_eq_citizen_iff _, heuristic_eq_opt_iff _, heuristic_eq_h1b_iff _⟩

/-- Claim C5, witness: the boundary theorem applied to the year string
"2014" evaluated in 2024 (ten years after graduation). -/
theorem C5_witness :
    (infer_visa_status [⟨"B.S.", "United States", "2014"⟩] 2024 =
        Except.ok "Citizen/GC" ↔ 10 ≤ (2024 : Int) - 2014) ∧
    (infer_visa_status [⟨"B.S.", "United States", "2014"⟩] 2024 =
        Except.ok "OPT/STEM" ↔ (2024 : Int) - 2014 ≤ 3) ∧
    (infer_visa_status [⟨"B.S.", "United States", "2014"⟩] 2024 =
        Except.ok "H1B" ↔ (4 ≤ (2024 : Int) - 2014 ∧ (2024 : Int) - 2014 ≤ 9)) :=
  C5_inclusive_boundaries "2014" 2014 2024 (by decide) (by decide)

/-- Claim C6: an education history in which no record's country matches
the US test — including the empty history — is classified "Foreign/H1B". -/
theorem C6_no_us_foreign (l : List EducationRecord) (Y : Int)
    (h : ∀ e ∈ l, usCountryMatch e.country = false) :
    infer_visa_status l Y = Except.ok "Foreign/H1B" := by
  have hparse : ∀ e ∈ l, usCountryMatch e.country = true →
      4 ≤ e.end_date.length → (parseYear e.end_date).isSome := by
    intro e he hu
    rw [h e he] at hu
    cases hu
  have hscan := scanEducation_eq l false 0 hparse
  have hany : (l.any fun e => usCountryMatch e.country) = false := by
    rw [List.any_eq_false]
    intro e he
    simp [h e he]
  rw [hany] at hscan
  simp only [Bool.false_or] at hscan
  unfold infer_visa_status
  rw [hscan]
  show (if !(false : Bool) then Except.ok "Foreign/H1B"
    else Except.ok (heuristic (Y - (lastLongUSYear l).getD 0)) :
      Except String String) = _
  rw [if_pos (by decide : (!(false : Bool)) = true)]

/-- Claim C6, witness: the theorem applied to the empty history and to a
single non-US record, both evaluated in 2024. -/
theorem C6_witness :
    infer_visa_status [] 2024 = Except.ok "Foreign/H1B" ∧
    infer_visa_status [⟨"B.S.", "China", "2019"⟩] 2024 =
      Except.ok "Foreign/H1B" :=
  ⟨C6_no_us_foreign [] 2024 (by decide),
   C6_no_us_foreign [⟨"B.S.", "China", "2019"⟩] 2024 (by decide)⟩

/-- Claim C7, counterexample: when the visa requirement is left unset it
defaults to "Citizen/GC" (JobRequest, main.py line 37), and the hard
filter applies: the two mock candidates yield only one verified candidate,
so the output list does not have the same length as the input list. -/
theorem C7_counterexample :
    source_candidates_result "Java Developer" default_visa_requirement 2024
        (fun _ => 90) mock_candidates =
      Except.ok (⟨"Java Developer", 2, 1,
        [⟨sarah_jones, "Citizen/GC", "90%", "Ready to Interview"⟩]⟩ :
        SourceResult) ∧
    (1 : Nat) ≠ 2 :=
  ⟨by decide, by decide⟩

/-- Claim C7, amended: the filter is stable — the surviving candidates are
a sublist of the input in input order — and when the requirement is the
string "Any" no candidate is excluded, so the output has the input's
length; an UNSET requirement, however, defaults to "Citizen/GC" and the
hard filter applies. -/
theorem C7_amended_stable_filter (req : String) (asOf : Int) (rng : Nat → Nat)
    (raw : List Candidate) (out : List VerifiedCandidate)
    (h : verifyLoop req asOf rng 0 raw = Except.ok out) :
    List.Sublist (out.map (fun v => v.cand)) raw ∧
    (req = "Any" → out.map (fun v => v.cand) = raw ∧ out.length = raw.length) ∧
    default_visa_requirement = "Citizen/GC" := by
  refine ⟨verifyLoop_sublist req asOf rng 0 raw out h, fun hreq => ?_, rfl⟩
  subst hreq
  have hmap := verifyLoop_all_accepted "Any" asOf rng (by decide) 0 raw out h
  refine ⟨hmap, ?_⟩
  rw [← hmap]
  simp

/-- Claim C7, witness: the amended theorem applied to the mock candidates
under the "Any" requirement in 2024; both candidates survive in order. -/
theorem C7_witness :
    List.Sublist (([⟨sarah_jones, "Citizen/GC", "90%", "Ready to Interview"⟩,
        ⟨alex_chen, "OPT/STEM", "90%", "Ready to Interview"⟩] :
        List VerifiedCandidate).map (fun v => v.cand)) mock_candidates ∧
    ("Any" = "Any" →
      ([⟨sarah_jones, "Citizen/GC", "90%", "Ready to Interview"⟩,
        ⟨alex_chen, "OPT/STEM", "90%", "Ready to Interview"⟩] :
        List VerifiedCandidate).map (fun v => v.cand) = mock_candidates ∧
      ([⟨sarah_jones, "Citizen/GC", "90%", "Ready to Interview"⟩,
        ⟨alex_chen, "OPT/STEM", "90%", "Ready to Interview"⟩] :
        List VerifiedCandidate).length = mock_candidates.length) ∧
    default_visa_requirement = "Citizen/GC" :=
  C7_amended_stable_filter "Any" 2024 (fun _ => 90) mock_candidates
    [⟨sarah_jones, "Citizen/GC", "90%", "Ready to Interview"⟩,
     ⟨alex_chen, "OPT/STEM", "90%", "Ready to Interview"⟩] (by decide)

/-- Claim C8, counterexample: the match score attached to an accepted
candidate is the percentage STRING "90%", which is not the decimal string
of any integer in [0, 100] — the output does not carry an integer
match_score as claimed. -/
theorem C8_counterexample :
    verifyLoop "Any" 2024 (fun _ => 90) 0 [sarah_jones] =
      Except.ok [⟨sarah_jones, "Citizen/GC", "90%", "Ready to Interview"⟩] ∧
    ((List.range 101).all (fun n => toString n != "90%")) = true :=
  ⟨by decide, by decide⟩

/-- Claim C8, amended: every accepted candidate's `match_score` is the
string `toString n ++ "%"` for some `randint` draw n in the fixed range
[85, 99] (whose numeric part therefore lies in [0, 100]), and the draws
have no bearing on which candidates survive the filter. -/
theorem C8_amended_score_format (req : String) (asOf : Int)
    (rng rng2 : Nat → Nat) (raw : List Candidate)
    (out : List VerifiedCandidate)
    (hr : ∀ n, 85 ≤ rng n ∧ rng n ≤ 99)
    (h : verifyLoop req asOf rng 0 raw = Except.ok out) :
    (∀ v ∈ out, ∃ n, 85 ≤ n ∧ n ≤ 99 ∧ v.match_score = toString n ++ "%") ∧
    (verifyLoop req asOf rng 0 raw).map (List.map (fun v => v.cand)) =
      (verifyLoop req asOf rng2 0 raw).map (List.map (fun v => v.cand)) :=
  ⟨verifyLoop_scores req asOf rng hr 0 raw out h,
   verifyLoop_rng_irrelevant req asOf rng rng2 0 0 raw⟩

/-- Claim C8, witness: the amended theorem applied to Sarah Jones under
the "Any" requirement with the constant draw streams 90 and 85. -/
theorem C8_witness :
    (∀ v ∈ ([⟨sarah_jones, "Citizen/GC", "90%", "Ready to Interview"⟩] :
        List VerifiedCandidate),
      ∃ n, 85 ≤ n ∧ n ≤ 99 ∧ v.match_score = toString n ++ "%") ∧
    (verifyLoop "Any" 2024 (fun _ => 90) 0 [sarah_jones]).map
        (List.map (fun v => v.cand)) =
      (verifyLoop "Any" 2024 (fun _ => 85) 0 [sarah_jones]).map
        (List.map (fun v => v.cand)) :=
  C8_amended_score_format "Any" 2024 (fun _ => 90) (fun _ => 85) [sarah_jones]
    [⟨sarah_jones, "Citizen/GC", "90%", "Ready to Interview"⟩]
    (fun _ => ⟨by simp, by simp⟩) (by decide)

/-- Claim C9: when a provider key is configured and the live call fails —
connection error, non-success status, or malformed payload — the sourcing
step returns the static fallback candidate set; no error reaches the
caller (the return type of `find_candidates` carries no error case at
all). -/
theorem C9_provider_fallback (apiKey : Option String) (k : String)
    (outcome : ProviderOutcome) (hk : apiKey = some k)
    (hfail :
      (∃ msg, outcome = ProviderOutcome.connectionError msg) ∨
      (∃ st payload, outcome = ProviderOutcome.response st payload ∧ st ≠ 200) ∨
      (∃ st msg, outcome = ProviderOutcome.response st (Except.error msg))) :
    find_candidates apiKey outcome = mock_candidates := by
  subst hk
  rcases hfail with ⟨msg, rfl⟩ | ⟨st, payload, rfl, hst⟩ | ⟨st, msg, rfl⟩
  · rfl
  · have hb : (st == 200) = false := by simp [hst]
    simp [find_candidates, hb]
  · by_cases hst : st = 200
    · subst hst
      simp [find_candidates]
    · have hb : (st == 200) = false := by simp [hst]
      simp [find_candidates, hb]

/-- Claim C9, witness: the fallback theorem applied to a connection
failure, a 500 response, and a 200 response with a malformed payload. -/
theorem C9_witness :
    find_candidates (some "PDL-KEY") (ProviderOutcome.connectionError "timeout") =
      mock_candidates ∧
    find_candidates (some "PDL-KEY")
        (ProviderOutcome.response 500 (Except.ok [])) = mock_candidates ∧
    find_candidates (some "PDL-KEY")
        (ProviderOutcome.response 200 (Except.error "malformed payload")) =
      mock_candidates :=
  ⟨C9_provider_fallback (some "PDL-KEY") "PDL-KEY"
      (ProviderOutcome.connectionError "timeout") rfl
      (Or.inl ⟨"timeout", rfl⟩),
   C9_provider_fallback (some "PDL-KEY") "PDL-KEY"
      (ProviderOutcome.response 500 (Except.ok [])) rfl
      (Or.inr (Or.inl ⟨500, Except.ok [], rfl, by decide⟩)),
   C9_provider_fallback (some "PDL-KEY") "PDL-KEY"
      (ProviderOutcome.response 200 (Except.error "malformed payload")) rfl
      (Or.inr (Or.inr ⟨200, "malformed payload", rfl⟩))⟩

/-- Claim C10: the market-bench operation is a pure function of the
request's `name` and `tech_stack` — two requests that agree on those
fields produce identical consultant, opportunities and email, whatever
their `resume_text`. -/
theorem C10_resume_text_irrelevant (r1 r2 : BenchRequest)
    (hn : r1.name = r2.name) (ht : r1.tech_stack = r2.tech_stack) :
    market_bench r1 = market_bench r2 := by
  simp [market_bench, hn, ht]

/-- Claim C10, witness: two requests with the same name and tech stack but
different resume texts yield the same result. -/
theorem C10_witness :
    market_bench ⟨"Ava Patel", "resume text A", "Java"⟩ =
      market_bench ⟨"Ava Patel", "a completely different resume", "Java"⟩ :=
  C10_resume_text_irrelevant ⟨"Ava Patel", "resume text A", "Java"⟩
    ⟨"Ava Patel", "a completely different resume", "Java"⟩ rfl rfl

end SmartRecruiter
